import Mathlib

/-!
Verification of the dividend-frequency inference engine and the portfolio
dividend-calendar aggregation of DividendHunterPro.

The embedding below translates, into Lean:

* `DividendAnalyzer.analyze_dividend_frequency` and the dividend part of
  `DividendAnalyzer.get_asset_metrics` (src/modulo1_ingenieria_datos.py);
* `_calculate_monthly_dividends` and the tax-application loop of
  `_portfolio_calendar_tab` (src/app.py), together with the payment-month
  normalisation that `_calculate_monthly_dividends` performs on the
  `dividend_payment_months` field of a stored asset record.

Modelling conventions:
* pandas timestamps are modelled at calendar-date granularity: a payment date
  is an integer day number together with its calendar month (the `.month`
  attribute of the timestamp).  Two same-day payments are two events with the
  same day number.  The "as-of" time is a day number; the cutoff is
  `as_of - 365` days exactly as in the source.
* Python floats are modelled as rationals; `round(x, 2)` is modelled as
  round-half-to-even at two decimal places (`pyRound2`), Python's rounding.
* The per-symbol dictionaries `shares_dict` and the tax-rate dictionary with
  their `.get(symbol, 0)` defaults are modelled as total functions.
* The `dividend_payment_months` field reaching `_calculate_monthly_dividends`
  is modelled as a list of integers; the source keeps exactly the integer
  entries lying in 1..12 and silently drops the rest (both the list branch of
  the in-line normalisation and `_parse_payment_months` enforce this).
-/

namespace DividendHunter

/-- One dividend payment event: the payment date (day number plus its calendar
month) and the per-share amount, as delivered by the market-data feed. -/
structure DividendEvent where
  day : ℤ
  month : ℕ
  amount : ℚ
  deriving DecidableEq

/-- The cutoff of the trailing window: `as_of - 365` days
(`pd.Timestamp.now() - pd.Timedelta(days=365)` in the source). -/
def cutoffDate (asOf : ℤ) : ℤ := asOf - 365

/-- `dividends[dividends.index >= cutoff_date]`: the events of the trailing
365-day window. -/
def recentDividends (events : List DividendEvent) (asOf : ℤ) : List DividendEvent :=
  events.filter (fun e => cutoffDate asOf ≤ e.day)

/-- `recent_dividends.index.normalize().unique()`: the distinct payment dates
(same-day duplicate payments collapse to one date). -/
def uniquePaymentDates (events : List DividendEvent) : List ℤ :=
  (events.map (fun e => e.day)).dedup

/-- The number of distinct calendar payment dates in the trailing window. -/
def paymentCount (events : List DividendEvent) (asOf : ℤ) : ℕ :=
  (uniquePaymentDates (recentDividends events asOf)).length

/-- `DividendAnalyzer.analyze_dividend_frequency`, body of the `try` block:
empty history or empty window yields `'sin_dividendos'`; otherwise the count
of distinct payment dates is classified by the 10/3/1 thresholds. -/
def analyze_dividend_frequency (events : List DividendEvent) (asOf : ℤ) : String :=
  if events.isEmpty then "sin_dividendos"
  else
    let recent := recentDividends events asOf
    if recent.isEmpty then "sin_dividendos"
    else
      let payment_count := (uniquePaymentDates recent).length
      if 10 ≤ payment_count then "mensual"
      else if 3 ≤ payment_count then "trimestral"
      else "irregular"

/-- `DividendAnalyzer.analyze_dividend_frequency` including its `try/except`
wrapper: the upstream feed (`ticker.dividends` and the subsequent pandas
operations) is modelled as an `Except`-valued input; any exception raised
while analysing is caught and `'irregular'` is returned. -/
def analyze_dividend_frequency_feed (feed : Except String (List DividendEvent))
    (asOf : ℤ) : String :=
  match feed with
  | Except.error _ => "irregular"
  | Except.ok events => analyze_dividend_frequency events asOf

/-- Round half to even at integer precision, Python's `round` on an exact
value. -/
def roundHalfToEven (q : ℚ) : ℤ :=
  let f := ⌊q⌋
  if q - f < 1 / 2 then f
  else if 1 / 2 < q - f then f + 1
  else if f % 2 = 0 then f else f + 1

/-- Python's `round(x, 2)`. -/
def pyRound2 (q : ℚ) : ℚ := (roundHalfToEven (q * 100) : ℚ) / 100

/-- The dividend-related fields of the metrics dictionary built by
`DividendAnalyzer.get_asset_metrics`. -/
structure AssetMetrics where
  annual_dividend : ℚ
  dividend_yield : ℚ
  dividend_frequency : String
  dividend_payment_months : List ℕ
  deriving DecidableEq

/-- The dividend part of `DividendAnalyzer.get_asset_metrics`: classify the
frequency, sum the trailing-window amounts into `annual_dividend` (rounded to
2 decimals in the returned dictionary), collect the sorted distinct payment
months, and derive the yield from the current price. -/
def get_asset_metrics (events : List DividendEvent) (asOf : ℤ)
    (current_price : ℚ) : AssetMetrics :=
  let dividend_frequency := analyze_dividend_frequency events asOf
  if events.isEmpty then
    { annual_dividend := 0, dividend_yield := 0,
      dividend_frequency := dividend_frequency, dividend_payment_months := [] }
  else
    let recent := recentDividends events asOf
    let annual_dividend := (recent.map (fun e => e.amount)).sum
    let payment_months :=
      if recent.isEmpty then ([] : List ℕ)
      else List.insertionSort (fun a b => a ≤ b) (recent.map (fun e => e.month)).dedup
    let dividend_yield := if current_price = 0 then 0
      else annual_dividend / current_price * 100
    { annual_dividend := pyRound2 annual_dividend,
      dividend_yield := pyRound2 dividend_yield,
      dividend_frequency := dividend_frequency,
      dividend_payment_months := payment_months }

/-- A stored asset record, as `_calculate_monthly_dividends` reads it from the
database layer. -/
structure Asset where
  symbol : String
  name : String
  annual_dividend : ℚ
  dividend_frequency : String
  dividend_payment_months : List ℤ
  deriving DecidableEq

/-- One contribution appended to a month's `assets` list by
`_calculate_monthly_dividends`. -/
structure Contribution where
  symbol : String
  name : String
  amount : ℚ
  shares : ℤ
  deriving DecidableEq

/-- One slot of the `monthly_dividends` dictionary: running gross total and
the list of contributions. -/
structure MonthCell where
  amount : ℚ
  assets : List Contribution
  deriving DecidableEq

/-- The `monthly_dividends` dictionary, keyed by month. -/
abbrev Calendar := ℕ → MonthCell

/-- `{i: {'amount': 0.0, 'assets': []} for i in range(1, 13)}`. -/
def emptyCalendar : Calendar := fun _ => { amount := 0, assets := [] }

/-- `monthly_dividends[month]['amount'] += amount` together with the
`append` of the contribution record. -/
def addContribution (cal : Calendar) (m : ℕ) (c : Contribution) : Calendar :=
  Function.update cal m
    { amount := (cal m).amount + c.amount, assets := (cal m).assets ++ [c] }

/-- Normalisation of the stored `dividend_payment_months` entries: keep
exactly the integer entries in 1..12, in order, silently dropping the rest
(lines 1836-1852 of src/app.py and `_parse_payment_months`). -/
def normalizeMonths (entries : List ℤ) : List ℕ :=
  entries.filterMap (fun m => if 1 ≤ m ∧ m ≤ 12 then some m.toNat else none)

/-- The cadence-default schedules used when no payment months are stored
(lines 1854-1861 of src/app.py). -/
def defaultMonths (frequency : String) : List ℕ :=
  if frequency = "mensual" then (List.range 12).map (fun i => i + 1)
  else if frequency = "trimestral" then [3, 6, 9, 12]
  else if frequency = "irregular" then [6, 12]
  else []

/-- The effective payment-month list: the normalised stored months when any
survive, otherwise the cadence default. -/
def effectiveMonths (frequency : String) (entries : List ℤ) : List ℕ :=
  let parsed := normalizeMonths entries
  if parsed.isEmpty then defaultMonths frequency else parsed

/-- `for month in payment_months: ...`: append an equal-sized contribution to
every listed month. -/
def distribute (cal : Calendar) (months : List ℕ) (sym nm : String)
    (amount : ℚ) (shares : ℤ) : Calendar :=
  months.foldl
    (fun c m => addContribution c m
      { symbol := sym, name := nm, amount := amount, shares := shares }) cal

/-- The per-asset body of the loop of `_calculate_monthly_dividends`: skip
when `shares <= 0`, skip when `total_annual <= 0` or the frequency is
`'sin_dividendos'`, otherwise split `total_annual` equally across the
effective payment months of the recognised frequency branch; an unrecognised
frequency falls through all three branches and contributes nothing. -/
def processAsset (shares_dict : String → ℤ) (cal : Calendar) (asset : Asset) :
    Calendar :=
  let shares := shares_dict asset.symbol
  if shares ≤ 0 then cal
  else
    let total_annual : ℚ := asset.annual_dividend * (shares : ℚ)
    let frequency := asset.dividend_frequency
    if total_annual ≤ 0 ∨ frequency = "sin_dividendos" then cal
    else
      let payment_months := effectiveMonths frequency asset.dividend_payment_months
      if frequency = "mensual" then
        distribute cal payment_months asset.symbol asset.name
          (total_annual /
            ((if payment_months.isEmpty then 12 else payment_months.length : ℕ) : ℚ))
          shares
      else if frequency = "trimestral" then
        distribute cal payment_months asset.symbol asset.name
          (total_annual /
            ((if payment_months.isEmpty then 4 else payment_months.length : ℕ) : ℚ))
          shares
      else if frequency = "irregular" then
        distribute cal payment_months asset.symbol asset.name
          (total_annual /
            ((if payment_months.isEmpty then 2 else payment_months.length : ℕ) : ℚ))
          shares
      else cal

/-- `_calculate_monthly_dividends` (src/app.py lines 1800-1906). -/
def calculate_monthly_dividends (assets : List Asset)
    (shares_dict : String → ℤ) : Calendar :=
  assets.foldl (processAsset shares_dict) emptyCalendar

/-- A contribution record after the tax loop of `_portfolio_calendar_tab` has
annotated it with gross, tax and net. -/
structure TaxedContribution where
  symbol : String
  name : String
  amount_before_tax : ℚ
  tax_amount : ℚ
  amount : ℚ
  tax_rate : ℚ
  shares : ℤ
  deriving DecidableEq

/-- The per-contribution body of the tax loop:
`tax_amount = dividend_before_tax * (tax_rate / 100)`;
`amount = dividend_before_tax - tax_amount`. -/
def applyTax (tax_rate : ℚ) (c : Contribution) : TaxedContribution :=
  let tax_amount := c.amount * (tax_rate / 100)
  { symbol := c.symbol, name := c.name, amount_before_tax := c.amount,
    tax_amount := tax_amount, amount := c.amount - tax_amount,
    tax_rate := tax_rate, shares := c.shares }

/-- A month slot after the tax loop: net monthly total plus taxed
contributions. -/
structure TaxedMonthCell where
  amount : ℚ
  assets : List TaxedContribution
  deriving DecidableEq

/-- The per-month body of the tax loop of `_portfolio_calendar_tab`: tax every
contribution at its holding's rate and recompute the month total as the sum of
the nets. -/
def applyTaxesMonth (tax_rates : String → ℚ) (cell : MonthCell) :
    TaxedMonthCell :=
  let taxed := cell.assets.map (fun c => applyTax (tax_rates c.symbol) c)
  { amount := (taxed.map (fun t => t.amount)).sum, assets := taxed }

/-- The calendar produced by `_portfolio_calendar_tab`: the aggregation of
`_calculate_monthly_dividends` followed by the tax loop on every month. -/
def portfolio_calendar (assets : List Asset) (shares_dict : String → ℤ)
    (tax_rates : String → ℚ) : ℕ → TaxedMonthCell :=
  fun m => applyTaxesMonth tax_rates (calculate_monthly_dividends assets shares_dict m)

/-- The total gross over the twelve calendar months. -/
def calendarGross (cal : Calendar) : ℚ :=
  Finset.sum (Finset.Icc 1 12) (fun m => (cal m).amount)

/-- The skip checks of `_calculate_monthly_dividends`, as an inclusion
predicate: a holding contributes exactly when its shares are positive, its
total annual dividend is positive and its frequency is not
`'sin_dividendos'`. -/
def includedHolding (shares_dict : String → ℤ) (a : Asset) : Bool :=
  decide (0 < shares_dict a.symbol) &&
  decide (0 < a.annual_dividend * (shares_dict a.symbol : ℚ)) &&
  decide (¬ a.dividend_frequency = "sin_dividendos")

/-- A small sample portfolio used by concrete witnesses: a quarterly payer, a
monthly payer with stored payment months, and an `'irregular'` asset. -/
def sampleAssets : List Asset :=
  [{ symbol := "A", name := "A Corp", annual_dividend := 2,
     dividend_frequency := "trimestral", dividend_payment_months := [] },
   { symbol := "B", name := "B Corp", annual_dividend := 3,
     dividend_frequency := "mensual", dividend_payment_months := [1, 7] },
   { symbol := "C", name := "C Corp", annual_dividend := 5,
     dividend_frequency := "irregular", dividend_payment_months := [] }]

/-- Sample share counts for `sampleAssets`: 100 of A, 10 of B, none of C. -/
def sampleShares : String → ℤ :=
  fun s => if s = "A" then 100 else if s = "B" then 10 else 0

/-- A single irregular holding with one stored payment month, used by a
concrete witness. -/
def sampleHolding : Asset :=
  { symbol := "D", name := "D Corp", annual_dividend := 2,
    dividend_frequency := "irregular", dividend_payment_months := [6] }

/-- The taxed contribution that `sampleHolding` (1 share, 50% tax) produces in
month 6: gross 2, tax 1, net 1. -/
def sampleTaxed : TaxedContribution :=
  { symbol := "D", name := "D Corp", amount_before_tax := 2, tax_amount := 1,
    amount := 1, tax_rate := 50, shares := 1 }

/-! ### Classifier lemmas -/

theorem paymentCount_eq_zero (events : List DividendEvent) (asOf : ℤ) :
    paymentCount events asOf = 0 ↔ recentDividends events asOf = [] := by
  simp [paymentCount, uniquePaymentDates, List.length_eq_zero,
    List.dedup_eq_nil, List.map_eq_nil_iff]

theorem analyze_eq (events : List DividendEvent) (asOf : ℤ) :
    analyze_dividend_frequency events asOf =
      if paymentCount events asOf = 0 then "sin_dividendos"
      else if 10 ≤ paymentCount events asOf then "mensual"
      else if 3 ≤ paymentCount events asOf then "trimestral"
      else "irregular" := by
  unfold analyze_dividend_frequency
  rcases events with _ | ⟨e, es⟩
  · simp [paymentCount, uniquePaymentDates, recentDividends]
  · simp only [List.isEmpty_cons, Bool.false_eq_true, if_false]
    by_cases h2 : recentDividends (e :: es) asOf = []
    · have h0 : paymentCount (e :: es) asOf = 0 :=
        (paymentCount_eq_zero _ _).mpr h2
      simp [h2, h0]
    · have h0 : paymentCount (e :: es) asOf ≠ 0 := fun h =>
        h2 ((paymentCount_eq_zero _ _).mp h)
      have hE : (recentDividends (e :: es) asOf).isEmpty = false := by
        simpa [List.isEmpty_iff] using h2
      simp only [hE, Bool.false_eq_true, if_false, if_neg h0]
      rfl

/-- C1: for every dividend-event history and as-of time, with `payment_count`
the number of distinct calendar payment dates in the trailing 365-day window
(same-day duplicates collapsed), the classifier returns `'mensual'` when
`payment_count >= 10`, `'trimestral'` when `3 <= payment_count <= 9`,
`'irregular'` when `1 <= payment_count <= 2`, and `'sin_dividendos'` when
`payment_count = 0`. -/
theorem claim_C1 (events : List DividendEvent) (asOf : ℤ) :
    (10 ≤ paymentCount events asOf →
      analyze_dividend_frequency events asOf = "mensual") ∧
    (3 ≤ paymentCount events asOf ∧ paymentCount events asOf ≤ 9 →
      analyze_dividend_frequency events asOf = "trimestral") ∧
    (1 ≤ paymentCount events asOf ∧ paymentCount events asOf ≤ 2 →
      analyze_dividend_frequency events asOf = "irregular") ∧
    (paymentCount events asOf = 0 →
      analyze_dividend_frequency events asOf = "sin_dividendos") := by
  refine ⟨fun h => ?_, fun h => ?_, fun h => ?_, fun h => ?_⟩
  · rw [analyze_eq, if_neg (by omega), if_pos h]
  · rw [analyze_eq, if_neg (by omega), if_neg (by omega), if_pos h.1]
  · rw [analyze_eq, if_neg (by omega), if_neg (by omega), if_neg (by omega)]
  · rw [analyze_eq, if_pos h]

/-- Witness for C1: concrete histories hitting each classification band. -/
theorem claim_C1_witness :
    analyze_dividend_frequency
      [⟨0, 1, 1⟩, ⟨30, 2, 1⟩, ⟨60, 3, 1⟩, ⟨90, 4, 1⟩, ⟨120, 5, 1⟩,
       ⟨150, 6, 1⟩, ⟨180, 7, 1⟩, ⟨210, 8, 1⟩, ⟨240, 9, 1⟩, ⟨270, 10, 1⟩,
       ⟨300, 11, 1⟩, ⟨330, 12, 1⟩] 365 = "mensual" ∧
    analyze_dividend_frequency
      [⟨74, 3, 1/2⟩, ⟨166, 6, 1/2⟩, ⟨258, 9, 1/2⟩, ⟨349, 12, 1/2⟩] 365 =
      "trimestral" ∧
    analyze_dividend_frequency [⟨100, 4, 1⟩] 365 = "irregular" ∧
    analyze_dividend_frequency [⟨-1000, 4, 1⟩] 365 = "sin_dividendos" :=
  ⟨(claim_C1 _ 365).1 (by decide),
   (claim_C1 _ 365).2.1 ⟨by decide, by decide⟩,
   (claim_C1 _ 365).2.2.1 ⟨by decide, by decide⟩,
   (claim_C1 _ 365).2.2.2 (by decide)⟩

/-- C9: if the upstream feed raises while the dividend history is being
analysed, `analyze_dividend_frequency` catches the exception and returns
`'irregular'` rather than propagating the error or returning
`'sin_dividendos'` — so an asset with no valid payment history can still be
labelled `'irregular'`. -/
theorem claim_C9 (msg : String) (asOf : ℤ) :
    analyze_dividend_frequency_feed (Except.error msg) asOf = "irregular" ∧
    analyze_dividend_frequency_feed (Except.error msg) asOf ≠
      "sin_dividendos" := by
  have h : ("irregular" : String) ≠ "sin_dividendos" := by decide
  exact ⟨rfl, h⟩

theorem analyze_ne_sin (events : List DividendEvent) (asOf : ℤ) :
    analyze_dividend_frequency events asOf ≠ "sin_dividendos" ↔
    recentDividends events asOf ≠ [] := by
  constructor
  · intro hne h2
    apply hne
    rw [analyze_eq, if_pos ((paymentCount_eq_zero _ _).mpr h2)]
  · intro h2
    have h0 : paymentCount events asOf ≠ 0 := fun h =>
      h2 ((paymentCount_eq_zero _ _).mp h)
    rw [analyze_eq, if_neg h0]
    split_ifs <;> decide

theorem pyRound2_zero : pyRound2 0 = 0 := by
  norm_num [pyRound2, roundHalfToEven]

/-- C4: for every event history and as-of time, the profile produced by
`get_asset_metrics` satisfies the invariant that the payment-months list is
non-empty exactly when the classified frequency is not `'sin_dividendos'`. -/
theorem claim_C4 (events : List DividendEvent) (asOf : ℤ) (price : ℚ) :
    (get_asset_metrics events asOf price).dividend_payment_months ≠ [] ↔
    (get_asset_metrics events asOf price).dividend_frequency ≠
      "sin_dividendos" := by
  unfold get_asset_metrics
  rcases events with _ | ⟨e, es⟩
  · simp [analyze_dividend_frequency]
  · simp only [List.isEmpty_cons, Bool.false_eq_true, if_false]
    by_cases h2 : recentDividends (e :: es) asOf = []
    · have hf : analyze_dividend_frequency (e :: es) asOf = "sin_dividendos" := by
        rw [analyze_eq, if_pos ((paymentCount_eq_zero _ _).mpr h2)]
      simp [h2, hf]
    · have hf := (analyze_ne_sin (e :: es) asOf).mpr h2
      have hE : (recentDividends (e :: es) asOf).isEmpty = false := by
        simpa [List.isEmpty_iff] using h2
      have hpm : List.insertionSort (fun a b => a ≤ b)
          ((recentDividends (e :: es) asOf).map (fun ev => ev.month)).dedup ≠
          [] := by
        intro hnil
        have hlen := congrArg List.length hnil
        rw [List.length_insertionSort] at hlen
        simp only [List.length_nil, List.length_eq_zero, List.dedup_eq_nil,
          List.map_eq_nil_iff] at hlen
        exact h2 hlen
      simp [hE, hpm, hf]

/-- C7: for every history that is empty or all of whose events lie strictly
before `as_of - 365` days, `get_asset_metrics` reports frequency
`'sin_dividendos'`, an empty payment-months list and a zero annual
dividend. -/
theorem claim_C7 (events : List DividendEvent) (asOf : ℤ) (price : ℚ)
    (h : ∀ e ∈ events, e.day < cutoffDate asOf) :
    (get_asset_metrics events asOf price).dividend_frequency =
      "sin_dividendos" ∧
    (get_asset_metrics events asOf price).dividend_payment_months = [] ∧
    (get_asset_metrics events asOf price).annual_dividend = 0 := by
  have hrec : recentDividends events asOf = [] := by
    rw [recentDividends, List.filter_eq_nil_iff]
    intro e he
    simpa using not_le.mpr (h e he)
  have hf : analyze_dividend_frequency events asOf = "sin_dividendos" := by
    rw [analyze_eq, if_pos ((paymentCount_eq_zero _ _).mpr hrec)]
  unfold get_asset_metrics
  rcases events with _ | ⟨e, es⟩
  · simp [hf]
  · simp [hrec, hf, pyRound2_zero]

/-- Witness for C7: a single stale event, 1000 days before the as-of time. -/
theorem claim_C7_witness :
    (∀ e ∈ [(⟨-1000, 4, 1⟩ : DividendEvent)], e.day < cutoffDate 0) ∧
    (get_asset_metrics [⟨-1000, 4, 1⟩] 0 10).dividend_frequency =
      "sin_dividendos" ∧
    (get_asset_metrics [⟨-1000, 4, 1⟩] 0 10).dividend_payment_months = [] ∧
    (get_asset_metrics [⟨-1000, 4, 1⟩] 0 10).annual_dividend = 0 :=
  ⟨by decide, claim_C7 [⟨-1000, 4, 1⟩] 0 10 (by decide)⟩

/-- C8 counterexample: a single in-window payment of 0.111 per share; the
metrics dictionary stores `round(0.111, 2) = 0.11`, which differs from the
exact window sum `0.111`. -/
theorem claim_C8_counterexample :
    (get_asset_metrics [⟨0, 1, 111/1000⟩] 0 1).annual_dividend ≠
      ((recentDividends [⟨0, 1, 111/1000⟩] 0).map (fun e => e.amount)).sum := by
  norm_num [get_asset_metrics, recentDividends, cutoffDate, pyRound2,
    roundHalfToEven]

/-- C8 as amended: the `annual_dividend` value returned in the asset metrics
is the sum of the amounts of all trailing-window events — same-day duplicate
payments included — rounded to two decimal places (Python `round`), rather
than the exact sum. -/
theorem claim_C8 (events : List DividendEvent) (asOf : ℤ) (price : ℚ) :
    (get_asset_metrics events asOf price).annual_dividend =
      pyRound2 (((recentDividends events asOf).map (fun e => e.amount)).sum) := by
  unfold get_asset_metrics
  rcases events with _ | ⟨e, es⟩
  · simp [recentDividends, pyRound2_zero]
  · simp

/-! ### Aggregator lemmas -/

theorem gross_addContribution (cal : Calendar) (m : ℕ) (c : Contribution)
    (hm : m ∈ Finset.Icc 1 12) :
    calendarGross (addContribution cal m c) = calendarGross cal + c.amount := by
  unfold calendarGross addContribution
  have h1 : ∀ k ∈ Finset.Icc 1 12,
      (Function.update cal m
        { amount := (cal m).amount + c.amount,
          assets := (cal m).assets ++ [c] } k).amount =
      (cal k).amount + (if k = m then c.amount else 0) := by
    intro k _
    by_cases hk : k = m
    · subst hk; simp [Function.update_apply]
    · simp [Function.update_apply, hk]
  rw [Finset.sum_congr rfl h1, Finset.sum_add_distrib,
    Finset.sum_ite_eq' (Finset.Icc 1 12) m (fun _ => c.amount), if_pos hm]

theorem gross_distribute (months : List ℕ) (cal : Calendar) (sym nm : String)
    (amount : ℚ) (shares : ℤ) (hm : ∀ m ∈ months, 1 ≤ m ∧ m ≤ 12) :
    calendarGross (distribute cal months sym nm amount shares) =
      calendarGross cal + amount * months.length := by
  induction months generalizing cal with
  | nil => simp [distribute]
  | cons m ms ih =>
    have hmem : m ∈ Finset.Icc 1 12 := by
      have := hm m (List.mem_cons_self m ms)
      rw [Finset.mem_Icc]; omega
    have hms : ∀ x ∈ ms, 1 ≤ x ∧ x ≤ 12 := fun x hx =>
      hm x (List.mem_cons_of_mem m hx)
    simp only [distribute, List.foldl_cons] at *
    rw [ih (addContribution cal m ⟨sym, nm, amount, shares⟩) hms,
      gross_addContribution cal m _ hmem]
    simp only [List.length_cons]
    push_cast
    ring

theorem mem_normalizeMonths (l : List ℤ) (x : ℕ)
    (hx : x ∈ normalizeMonths l) : 1 ≤ x ∧ x ≤ 12 := by
  simp only [normalizeMonths, List.mem_filterMap] at hx
  obtain ⟨m, _, hm⟩ := hx
  by_cases h : 1 ≤ m ∧ m ≤ 12
  · rw [if_pos h] at hm
    simp only [Option.some.injEq] at hm
    omega
  · rw [if_neg h] at hm
    cases hm

theorem mem_defaultMonths (f : String) (x : ℕ) (hx : x ∈ defaultMonths f) :
    1 ≤ x ∧ x ≤ 12 := by
  unfold defaultMonths at hx
  split_ifs at hx
  · simp only [List.mem_map, List.mem_range] at hx
    obtain ⟨i, hi, rfl⟩ := hx
    omega
  · simp only [List.mem_cons, List.not_mem_nil, or_false] at hx
    rcases hx with rfl | rfl | rfl | rfl <;> omega
  · simp only [List.mem_cons, List.not_mem_nil, or_false] at hx
    rcases hx with rfl | rfl <;> omega
  · simp at hx

theorem mem_effectiveMonths (f : String) (l : List ℤ) (x : ℕ)
    (hx : x ∈ effectiveMonths f l) : 1 ≤ x ∧ x ≤ 12 := by
  simp only [effectiveMonths] at hx
  split_ifs at hx
  · exact mem_defaultMonths f x hx
  · exact mem_normalizeMonths l x hx

theorem effectiveMonths_ne_nil (f : String) (l : List ℤ)
    (hf : f = "mensual" ∨ f = "trimestral" ∨ f = "irregular") :
    effectiveMonths f l ≠ [] := by
  simp only [effectiveMonths]
  split_ifs with h
  · rcases hf with rfl | rfl | rfl <;> decide
  · simpa [List.isEmpty_iff] using h

theorem gross_processAsset (sd : String → ℤ) (cal : Calendar) (a : Asset)
    (hfreq : a.dividend_frequency = "mensual" ∨
      a.dividend_frequency = "trimestral" ∨
      a.dividend_frequency = "irregular" ∨
      a.dividend_frequency = "sin_dividendos") :
    calendarGross (processAsset sd cal a) =
      calendarGross cal +
        (if includedHolding sd a then
          a.annual_dividend * (sd a.symbol : ℚ) else 0) := by
  have hEgen : ∀ hf : a.dividend_frequency = "mensual" ∨
      a.dividend_frequency = "trimestral" ∨
      a.dividend_frequency = "irregular",
      (effectiveMonths a.dividend_frequency a.dividend_payment_months).isEmpty
        = false := by
    intro hf
    simpa [List.isEmpty_iff] using
      effectiveMonths_ne_nil a.dividend_frequency a.dividend_payment_months hf
  have hlenQ : ∀ hf : a.dividend_frequency = "mensual" ∨
      a.dividend_frequency = "trimestral" ∨
      a.dividend_frequency = "irregular",
      ((effectiveMonths a.dividend_frequency a.dividend_payment_months).length
        : ℚ) ≠ 0 := by
    intro hf
    have := effectiveMonths_ne_nil a.dividend_frequency
      a.dividend_payment_months hf
    exact_mod_cast Nat.cast_ne_zero.mpr
      (fun h => this (List.length_eq_zero.mp h))
  unfold processAsset
  by_cases h1 : sd a.symbol ≤ 0
  · rw [if_pos h1]
    have hinc : includedHolding sd a = false := by
      simp [includedHolding, not_lt.mpr h1]
    simp [hinc]
  · rw [if_neg h1]
    simp only []
    by_cases h2 : a.annual_dividend * (sd a.symbol : ℚ) ≤ 0 ∨
        a.dividend_frequency = "sin_dividendos"
    · rw [if_pos h2]
      have hinc : includedHolding sd a = false := by
        rcases h2 with h | h
        · simp [includedHolding, not_lt.mpr h]
        · simp [includedHolding, h]
      simp [hinc]
    · rw [if_neg h2]
      push_neg at h2
      obtain ⟨h2a, h2b⟩ := h2
      have hinc : includedHolding sd a = true := by
        unfold includedHolding
        rw [decide_eq_true (not_le.mp h1), decide_eq_true h2a,
          decide_eq_true h2b]
        simp
      have hf3 : a.dividend_frequency = "mensual" ∨
          a.dividend_frequency = "trimestral" ∨
          a.dividend_frequency = "irregular" := by
        rcases hfreq with h | h | h | h
        · exact Or.inl h
        · exact Or.inr (Or.inl h)
        · exact Or.inr (Or.inr h)
        · exact absurd h h2b
      rcases hf3 with hf | hf | hf
      · rw [if_pos hf, hEgen (Or.inl hf)]
        rw [gross_distribute _ _ _ _ _ _
          (fun x hx => mem_effectiveMonths _ _ x hx)]
        rw [if_neg (by simp), div_mul_cancel₀ _ (hlenQ (Or.inl hf)), hinc,
          if_pos rfl]
      · rw [if_neg (by rw [hf]; decide), if_pos hf, hEgen (Or.inr (Or.inl hf))]
        rw [gross_distribute _ _ _ _ _ _
          (fun x hx => mem_effectiveMonths _ _ x hx)]
        rw [if_neg (by simp), div_mul_cancel₀ _ (hlenQ (Or.inr (Or.inl hf))),
          hinc, if_pos rfl]
      · rw [if_neg (by rw [hf]; decide), if_neg (by rw [hf]; decide),
          if_pos hf, hEgen (Or.inr (Or.inr hf))]
        rw [gross_distribute _ _ _ _ _ _
          (fun x hx => mem_effectiveMonths _ _ x hx)]
        rw [if_neg (by simp), div_mul_cancel₀ _ (hlenQ (Or.inr (Or.inr hf))),
          hinc, if_pos rfl]

theorem gross_foldl (assets : List Asset) (sd : String → ℤ) (cal : Calendar)
    (hfreq : ∀ a ∈ assets, a.dividend_frequency = "mensual" ∨
      a.dividend_frequency = "trimestral" ∨
      a.dividend_frequency = "irregular" ∨
      a.dividend_frequency = "sin_dividendos") :
    calendarGross (assets.foldl (processAsset sd) cal) =
      calendarGross cal +
      ((assets.filter (includedHolding sd)).map
        (fun a => a.annual_dividend * (sd a.symbol : ℚ))).sum := by
  induction assets generalizing cal with
  | nil => simp
  | cons a as ih =>
    simp only [List.foldl_cons]
    rw [ih (processAsset sd cal a)
      (fun x hx => hfreq x (List.mem_cons_of_mem a hx)),
      gross_processAsset sd cal a (hfreq a (List.mem_cons_self a as))]
    by_cases hI : includedHolding sd a = true
    · rw [List.filter_cons_of_pos hI, if_pos hI]
      simp only [List.map_cons, List.sum_cons]
      ring
    · rw [List.filter_cons_of_neg hI]
      simp only [Bool.not_eq_true] at hI
      simp [hI]

/-- C2: for every portfolio, the sum over the twelve months of the gross
amounts produced by `_calculate_monthly_dividends` equals the sum over all
included holdings of `annual_dividend_per_share * shares`, a holding being
included exactly when `shares > 0`, `annual_dividend_per_share * shares > 0`
and its frequency is not `'sin_dividendos'`; the equal split never loses or
gains money.  Frequencies are the four cadence labels of the data model. -/
theorem claim_C2 (assets : List Asset) (shares_dict : String → ℤ)
    (hfreq : ∀ a ∈ assets, a.dividend_frequency = "mensual" ∨
      a.dividend_frequency = "trimestral" ∨
      a.dividend_frequency = "irregular" ∨
      a.dividend_frequency = "sin_dividendos") :
    calendarGross (calculate_monthly_dividends assets shares_dict) =
      ((assets.filter (includedHolding shares_dict)).map
        (fun a => a.annual_dividend * (shares_dict a.symbol : ℚ))).sum := by
  have h0 : calendarGross emptyCalendar = 0 := by
    simp [calendarGross, emptyCalendar]
  rw [calculate_monthly_dividends, gross_foldl assets shares_dict _ hfreq, h0,
    zero_add]

/-- Witness for C2: a three-holding portfolio (quarterly payer, monthly payer
with stored months, and a zero-share holding that is excluded). -/
theorem claim_C2_witness :
    calendarGross (calculate_monthly_dividends sampleAssets sampleShares) =
      ((sampleAssets.filter (includedHolding sampleShares)).map
        (fun a => a.annual_dividend * (sampleShares a.symbol : ℚ))).sum :=
  claim_C2 sampleAssets sampleShares (by decide)

/-- C5: for every contribution record of every month of the aggregated and
tax-annotated calendar, the withheld tax is `gross * tax_rate / 100` and the
net amount equals `gross - gross * tax_rate / 100` exactly. -/
theorem claim_C5 (assets : List Asset) (shares_dict : String → ℤ)
    (tax_rates : String → ℚ) (m : ℕ) (tc : TaxedContribution)
    (h : tc ∈ (portfolio_calendar assets shares_dict tax_rates m).assets) :
    tc.tax_amount = tc.amount_before_tax * tc.tax_rate / 100 ∧
    tc.amount =
      tc.amount_before_tax - tc.amount_before_tax * tc.tax_rate / 100 := by
  simp only [portfolio_calendar, applyTaxesMonth, List.mem_map] at h
  obtain ⟨c, -, rfl⟩ := h
  refine ⟨?_, ?_⟩ <;> simp [applyTax] <;> ring

/-- Witness for C5: one stored-month irregular holding, 1 share, 50% tax;
month 6 carries gross 2, tax 1, net 1. -/
theorem claim_C5_witness :
    sampleTaxed ∈
      (portfolio_calendar [sampleHolding] (fun _ => 1) (fun _ => 50) 6).assets ∧
    (sampleTaxed.tax_amount =
        sampleTaxed.amount_before_tax * sampleTaxed.tax_rate / 100 ∧
      sampleTaxed.amount = sampleTaxed.amount_before_tax -
        sampleTaxed.amount_before_tax * sampleTaxed.tax_rate / 100) := by
  have h : sampleTaxed ∈
      (portfolio_calendar [sampleHolding] (fun _ => 1) (fun _ => 50) 6).assets := by
    simp [portfolio_calendar, applyTaxesMonth, applyTax, sampleTaxed,
      sampleHolding, calculate_monthly_dividends, processAsset,
      effectiveMonths, normalizeMonths, defaultMonths, distribute,
      addContribution, emptyCalendar, Function.update]
    norm_num
  exact ⟨h, claim_C5 _ _ _ 6 _ h⟩

/-- C6: an included holding with no surviving stored payment months falls back
to the cadence-default schedule (`'mensual'`: months 1-12, `'trimestral'`:
3, 6, 9 and 12, `'irregular'`: 6 and 12) and splits
`annual_dividend_per_share * shares` equally across those months. -/
theorem claim_C6 (a : Asset) (shares_dict : String → ℤ) (cal : Calendar)
    (h1 : 0 < shares_dict a.symbol)
    (h2 : 0 < a.annual_dividend * (shares_dict a.symbol : ℚ))
    (h3 : normalizeMonths a.dividend_payment_months = [])
    (h4 : a.dividend_frequency = "mensual" ∨
      a.dividend_frequency = "trimestral" ∨
      a.dividend_frequency = "irregular") :
    processAsset shares_dict cal a =
      distribute cal (defaultMonths a.dividend_frequency) a.symbol a.name
        (a.annual_dividend * (shares_dict a.symbol : ℚ) /
          ((defaultMonths a.dividend_frequency).length : ℚ))
        (shares_dict a.symbol) ∧
    defaultMonths "mensual" = [1, 2, 3, 4, 5, 6, 7, 8, 9, 10, 11, 12] ∧
    defaultMonths "trimestral" = [3, 6, 9, 12] ∧
    defaultMonths "irregular" = [6, 12] := by
  refine ⟨?_, by decide, by decide, by decide⟩
  have hsin : a.dividend_frequency ≠ "sin_dividendos" := by
    rcases h4 with hf | hf | hf <;> rw [hf] <;> decide
  have hEff : effectiveMonths a.dividend_frequency a.dividend_payment_months =
      defaultMonths a.dividend_frequency := by
    simp [effectiveMonths, h3]
  unfold processAsset
  rw [if_neg (not_le.mpr h1), if_neg (not_or.mpr ⟨not_le.mpr h2, hsin⟩)]
  rcases h4 with hf | hf | hf
  · rw [if_pos hf, hEff, hf]
    norm_num [show (defaultMonths "mensual").isEmpty = false from by decide,
      show (defaultMonths "mensual").length = 12 from by decide]
  · rw [if_neg (by rw [hf]; decide), if_pos hf, hEff, hf]
    norm_num [show (defaultMonths "trimestral").isEmpty = false from by decide,
      show (defaultMonths "trimestral").length = 4 from by decide]
  · rw [if_neg (by rw [hf]; decide), if_neg (by rw [hf]; decide),
      if_pos hf, hEff, hf]
    norm_num [show (defaultMonths "irregular").isEmpty = false from by decide,
      show (defaultMonths "irregular").length = 2 from by decide]

/-- Witness for C6: a 100-share quarterly holding with no stored months splits
200 equally across the default quarterly schedule. -/
theorem claim_C6_witness :
    (0 : ℤ) < 100 ∧ (0 : ℚ) < 2 * 100 ∧ normalizeMonths [] = [] ∧
    processAsset (fun _ => 100) emptyCalendar
      { symbol := "A", name := "A Corp", annual_dividend := 2,
        dividend_frequency := "trimestral", dividend_payment_months := [] } =
      distribute emptyCalendar (defaultMonths "trimestral") "A" "A Corp"
        (2 * ((100 : ℤ) : ℚ) / ((defaultMonths "trimestral").length : ℚ))
        100 := by
  refine ⟨by decide, by norm_num, by decide, ?_⟩
  exact (claim_C6
    { symbol := "A", name := "A Corp", annual_dividend := 2,
      dividend_frequency := "trimestral", dividend_payment_months := [] }
    (fun _ => 100) emptyCalendar (by decide) (by norm_num) (by decide)
    (Or.inr (Or.inl rfl))).1

/-- C10: a holding whose frequency label is none of the four cadence labels
passes the skip checks (positive shares, positive total, label not
`'sin_dividendos'`) yet falls through every frequency branch of
`_calculate_monthly_dividends`, contributing nothing to any month and raising
no error. -/
theorem claim_C10 (a : Asset) (shares_dict : String → ℤ) (cal : Calendar)
    (h : a.dividend_frequency ≠ "mensual" ∧
      a.dividend_frequency ≠ "trimestral" ∧
      a.dividend_frequency ≠ "irregular" ∧
      a.dividend_frequency ≠ "sin_dividendos")
    (h1 : 0 < shares_dict a.symbol)
    (h2 : 0 < a.annual_dividend * (shares_dict a.symbol : ℚ)) :
    processAsset shares_dict cal a = cal := by
  unfold processAsset
  rw [if_neg (not_le.mpr h1), if_neg (not_or.mpr ⟨not_le.mpr h2, h.2.2.2⟩),
    if_neg h.1, if_neg h.2.1, if_neg h.2.2.1]

/-- Witness for C10: a 5-share holding labelled `'semanal'` leaves the empty
calendar untouched. -/
theorem claim_C10_witness :
    (("semanal" : String) ≠ "mensual" ∧ ("semanal" : String) ≠ "trimestral" ∧
      ("semanal" : String) ≠ "irregular" ∧
      ("semanal" : String) ≠ "sin_dividendos") ∧
    (0 : ℤ) < 5 ∧ (0 : ℚ) < 1 * 5 ∧
    processAsset (fun _ => 5) emptyCalendar
      { symbol := "X", name := "X Corp", annual_dividend := 1,
        dividend_frequency := "semanal", dividend_payment_months := [1] } =
      emptyCalendar := by
  refine ⟨by decide, by decide, by norm_num, ?_⟩
  exact claim_C10
    { symbol := "X", name := "X Corp", annual_dividend := 1,
      dividend_frequency := "semanal", dividend_payment_months := [1] }
    (fun _ => 5) emptyCalendar (by decide) (by decide) (by norm_num)

/-- C3 counterexample: no validation error exists anywhere in the pipeline.
A holding with `shares = -5` produces the ordinary empty calendar instead of
being rejected; a 150% tax rate is applied as-is, yielding a negative net of
-5 on a gross of 10 with no error; a stored payment-month entry 13 is
silently dropped by the normalisation instead of being rejected. -/
theorem claim_C3_counterexample :
    calculate_monthly_dividends
      [{ symbol := "NEG", name := "Neg Corp", annual_dividend := 1,
         dividend_frequency := "mensual", dividend_payment_months := [] }]
      (fun _ => -5) = emptyCalendar ∧
    (applyTax 150
      { symbol := "NEG", name := "Neg Corp", amount := 10, shares := 1 }).amount
      = -5 ∧
    normalizeMonths [13] = [] := by
  refine ⟨rfl, by norm_num [applyTax], by decide⟩

/-- C3 as amended: instead of failing fast with a validation error, the
aggregation handles invalid records silently — a holding whose share count is
not positive (negative included) is skipped and contributes nothing, a tax
rate outside [0,100] is applied unclamped in `net = gross - gross*(rate/100)`,
and every stored payment-month entry outside 1-12 is dropped, so each
surviving month lies in 1..12. -/
theorem claim_C3 (a : Asset) (shares_dict : String → ℤ) (cal : Calendar)
    (tax_rate : ℚ) (c : Contribution) (ms : List ℤ) (x : ℕ)
    (h1 : shares_dict a.symbol ≤ 0) (h2 : x ∈ normalizeMonths ms) :
    processAsset shares_dict cal a = cal ∧
    (applyTax tax_rate c).amount = c.amount - c.amount * (tax_rate / 100) ∧
    (1 ≤ x ∧ x ≤ 12) := by
  refine ⟨?_, rfl, mem_normalizeMonths ms x h2⟩
  unfold processAsset
  rw [if_pos h1]

/-- Witness for C3 as amended: shares -5, tax rate 150, stored months
containing the invalid entry 13 next to the valid entry 4. -/
theorem claim_C3_witness :
    ((fun _ : String => (-5 : ℤ)) "NEG" ≤ 0) ∧ 4 ∈ normalizeMonths [13, 4] ∧
    (processAsset (fun _ => -5) emptyCalendar
      { symbol := "NEG", name := "Neg Corp", annual_dividend := 1,
        dividend_frequency := "mensual", dividend_payment_months := [] } =
      emptyCalendar ∧
    (applyTax 150
      { symbol := "NEG", name := "Neg Corp", amount := 10, shares := 1 }).amount
      = 10 - 10 * (150 / 100) ∧
    (1 ≤ 4 ∧ 4 ≤ 12)) :=
  ⟨by decide, by decide,
   claim_C3
    { symbol := "NEG", name := "Neg Corp", annual_dividend := 1,
      dividend_frequency := "mensual", dividend_payment_months := [] }
    (fun _ => -5) emptyCalendar 150
    { symbol := "NEG", name := "Neg Corp", amount := 10, shares := 1 }
    [13, 4] 4 (by decide) (by decide)⟩

end DividendHunter
